import Mathlib

/-!
Verification development for the SolarSimulatorMonitor repository.

Shallow embedding of the schedule engine (`src/Schedule.py`), the Arduino
serial protocol client (`src/Serial_Arduino.py`), the serial device
identity matching (`src/Serial_devices.py`) and the mapped Modbus client
(`src/mapped_modbus_client.py`), together with theorems about the claims
made by the specification.

Modelling conventions:
* Python floats are modelled as rationals (`Rat`).
* Device and serial I/O is modelled by explicit oracle arguments (the
  response line a device would produce, whether a Modbus write response
  reports an error, ...).
* Logger calls are modelled by appending a `LogMsg` value that identifies
  the call site; the exact message text is not modelled.
* Exceptions are modelled with `Except String`, the string naming the
  Python exception.
-/

/-- Marks each `self.logger(...)` call site of the embedded code. -/
inductive LogMsg
  /-- `Schedule._update_conditions`: `'Running ' + title`. -/
  | runningTitle (title : String)
  /-- `ScheduleRow.apply`: "Cannot set parameter ..., device is not connected!". -/
  | cannotSetParameter (name : String)
  /-- `Arduino.add_variable`: "overriding variable ...". -/
  | overridingVariable (name : String)
  /-- `Arduino.add_variable`: "attempting to add invalid variable number". -/
  | invalidVariableNumber (n : Int)
  /-- `Arduino.add_variable`: "attempting to add duplicate variable number". -/
  | duplicateVariableNumber (n : Int)
  /-- `Arduino.add_variable`: "attempting to add variable with invalid access". -/
  | invalidAccess (a : String)
  /-- `Arduino.add_variable`: "attempting to add variable with invalid type". -/
  | invalidType (t : String)
  /-- `Arduino.read_variable` / `write_variable`: "unknown variable name". -/
  | unknownVariable (name : String)
  /-- `Arduino.read_variable`: "variable ... is write-only.". -/
  | writeOnlyVariable (name : String)
  /-- `Arduino.read_variable`: "received unexpected data". -/
  | unexpectedData (buf : String)
  /-- `Arduino.read_variable`: exception text plus "failed to read variable". -/
  | readFailure (name : String)
  /-- `MappedModbusClient.write_command`: "Error: ..." line on a failed response. -/
  | modbusWriteError (command mode : String)
  /-- `MappedModbusClient.write_command`: `str(res)` detail line. -/
  | modbusWriteResponse
  /-- `MappedModbusClient.write_command`: `str(res.registers)` detail line. -/
  | modbusWriteRegisters
  /-- `MappedModbusClient.write_command`: `str(res.bits)` detail line. -/
  | modbusWriteBits
deriving DecidableEq, Repr

/-- A Python value of type `int | float | str`, as returned by
`Arduino.read_variable`. -/
inductive PyVal
  | vint (n : Int)
  | vfloat (q : Rat)
  | vstr (s : String)
deriving DecidableEq, Repr

/-- `listModify f i l` applies `f` to the element of `l` at position `i`
(used to model in-place mutation of `self._conditions[index]`). -/
def listModify (f : α → α) : Nat → List α → List α
  | _, [] => []
  | 0, a :: as => f a :: as
  | n + 1, a :: as => a :: listModify f n as

namespace Schedule

/-- State of one `Common_Device.MonitorDevice` as the schedule engine sees it:
whether its connection is open (`is_open`), whether it has an enable
capability (`has_enable`), its on/off state and its setpoint. -/
structure Device where
  isOpen : Bool
  hasEnable : Bool
  isOn : Bool
  sp : Rat
deriving DecidableEq, Repr

/-- A device-linked `ScheduleParameter` (fixed columns such as status or
title are kept in `Row` instead, mirroring how `Schedule.__init__` builds
the parameter list). -/
structure DevParam where
  name : String
  offDuringEquilibration : Bool
  dev : Device
deriving DecidableEq, Repr

/-- Status strings written by `Schedule._set_run_status` plus the initial
`'ready'` written by the automation window. -/
inductive RowStatus
  | ready
  | equilibrating
  | running
  | done
deriving DecidableEq, Repr

/-- One `ScheduleRow`: the fixed columns plus the value assigned to each
device-linked parameter (`values i` is the value for `devParams[i]`;
in the source this is the `_parameter_values` dictionary, which always
holds an entry for every parameter). -/
structure Row where
  status : RowStatus
  title : String
  equilibration : Rat
  duration : Rat
  values : Nat → Rat

/-- The mutable state of a `Schedule` object together with the external
effects the engine produces: the device-linked parameters, the condition
rows, the `_running` flag, whether `_thread_run` is not `None`, the
history of `_set_run_status` writes (instrumentation used to state
temporal claims) and the log lines emitted so far. -/
structure ScheduleState where
  devParams : List DevParam
  rows : List Row
  running : Bool
  threadAlive : Bool
  events : List (Nat × RowStatus)
  log : List LogMsg

/-- `ScheduleRow.apply`, effect on a single device-linked parameter.
Returns the updated parameter together with the log lines emitted.
Mirrors `Schedule.py` lines 100-120; the `_monitor_window.change_*`
display calls are presentation-layer and not modelled. -/
def applyParam (equilibration : Bool) (p : DevParam) (value : Rat) : DevParam × List LogMsg :=
  if p.dev.isOpen = false then
    (p, [LogMsg.cannotSetParameter p.name])
  else if p.offDuringEquilibration && equilibration then
    if p.dev.hasEnable then
      ({ p with dev := { p.dev with isOn := false } }, [])
    else
      ({ p with dev := { p.dev with sp := 0 } }, [])
  else
    let p1 := if p.dev.hasEnable && !p.dev.isOn then
        { p with dev := { p.dev with isOn := true } }
      else p
    ({ p1 with dev := { p1.dev with sp := value } }, [])

/-- `ScheduleRow.apply`, iterating over all device-linked parameters in
order (`for parameter in self._parameter_values.keys()`), threading the
parameter index so each parameter reads its own row value. -/
def applyParams (equilibration : Bool) (values : Nat → Rat) :
    Nat → List DevParam → List DevParam × List LogMsg
  | _, [] => ([], [])
  | i, p :: ps =>
    let r := applyParam equilibration p (values i)
    let rest := applyParams equilibration values (i + 1) ps
    (r.1 :: rest.1, r.2 ++ rest.2)

/-- `Schedule.safestate`, effect on a single device-linked parameter
(`Schedule.py` lines 196-205): parameters whose device is not open are
skipped (`continue`, with no logging), devices with an enable capability
are turned off, the others get setpoint 0. -/
def safestateDev (p : DevParam) : DevParam :=
  if p.dev.isOpen = false then p
  else if p.dev.hasEnable then { p with dev := { p.dev with isOn := false } }
  else { p with dev := { p.dev with sp := 0 } }

/-- `Schedule.safestate`: the pass over `self.parameters`; fixed
parameters have `device is None` and are skipped, so only `devParams`
is affected. The pass emits no log messages. -/
def safestate (s : ScheduleState) : ScheduleState :=
  { s with devParams := s.devParams.map safestateDev }

/-- `Schedule._set_run_status` (the `automation_window` label update is
presentation-layer); also records the write in the event history. -/
def setRunStatus (s : ScheduleState) (i : Nat) (st : RowStatus) : ScheduleState :=
  { s with
    rows := listModify (fun r => { r with status := st }) i s.rows
    events := s.events ++ [(i, st)] }

/-- The `self.logger('Running ' + title)` call at the top of each loop
iteration of `Schedule._update_conditions`. -/
def logRunningTitle (s : ScheduleState) (i : Nat) : ScheduleState :=
  match s.rows[i]? with
  | none => s
  | some r => { s with log := s.log ++ [LogMsg.runningTitle r.title] }

/-- `self._conditions[self._run_index].apply(equilibration)` as a state
transition. -/
def applyRowState (s : ScheduleState) (i : Nat) (equilibration : Bool) : ScheduleState :=
  match s.rows[i]? with
  | none => s
  | some r =>
    let res := applyParams equilibration r.values 0 s.devParams
    { s with devParams := res.1, log := s.log ++ res.2 }

/-- A `pause.minutes(...)` wait: while the worker is blocked, an external
`stop()` call may clear the `_running` flag; `stopHere` says whether that
happens during this particular wait. -/
def pauseStop (stopHere : Bool) (s : ScheduleState) : ScheduleState :=
  if stopHere then { s with running := false } else s

/-- One iteration of the `while` loop body of
`Schedule._update_conditions` (`Schedule.py` lines 261-273) on row `i`:
log the title, set status `equilibrating`, apply with equilibration,
wait (during which `stopE i` says whether an external `stop()` clears
the running flag), then either break (`if not self.running: break`,
returning `false`) or set status `running`, apply without equilibration,
wait (`stopR i`), set status `done` and report whether the loop
continues (`if not self._running: break` after `_run_index += 1`). -/
def runStep (stopE stopR : Nat → Bool) (i : Nat) (s : ScheduleState) : Bool × ScheduleState :=
  let s1 := logRunningTitle s i
  let s2 := setRunStatus s1 i RowStatus.equilibrating
  let s3 := applyRowState s2 i true
  let s4 := pauseStop (stopE i) s3
  if s4.running = false then (false, s4)
  else
    let s5 := setRunStatus s4 i RowStatus.running
    let s6 := applyRowState s5 i false
    let s7 := pauseStop (stopR i) s6
    let s8 := setRunStatus s7 i RowStatus.done
    if s8.running = false then (false, s8) else (true, s8)

/-- The `while self._run_index < len(self)` loop of
`Schedule._update_conditions` (`Schedule.py` lines 260-273), with fuel
(the loop runs at most `len(self)` iterations since `_run_index` starts
at 0, increases by one per iteration and the row list is never modified
by the loop body). -/
def runLoop (stopE stopR : Nat → Bool) : Nat → Nat → ScheduleState → ScheduleState
  | 0, _, s => s
  | fuel + 1, i, s =>
    if i < s.rows.length then
      let r := runStep stopE stopR i s
      if r.1 then runLoop stopE stopR fuel (i + 1) r.2 else r.2
    else s

/-- `Schedule._update_conditions`: set `_run_index = 0`, `_running = True`,
run the loop, then unconditionally run `self.safestate()` (the
`automation_window.enable_start` call is presentation-layer). -/
def updateConditions (stopE stopR : Nat → Bool) (s : ScheduleState) : ScheduleState :=
  safestate (runLoop stopE stopR s.rows.length 0 { s with running := true })

/-- `Schedule.start`: spawns the worker thread, so `_thread_run` is no
longer `None`. -/
def start (s : ScheduleState) : ScheduleState :=
  { s with threadAlive := true }

/-- `Schedule.stop`: sets `_running = False`, then calls
`self._thread_run.join(2)`.  When `_thread_run` is `None` (no `start()`
was ever issued, or a previous `stop()` already reset it), the `join`
raises `AttributeError` and neither the reset of `_thread_run` nor
`self.safestate()` executes; the `Except.error` value carries the object
state at the raise point. -/
def stop (s : ScheduleState) : Except ScheduleState ScheduleState :=
  let s1 := { s with running := false }
  if s1.threadAlive then
    Except.ok (safestate { s1 with threadAlive := false })
  else
    Except.error s1

/-- The per-row sequence of statuses written by the worker, extracted from
the event history. -/
def rowEvents (evs : List (Nat × RowStatus)) (i : Nat) : List RowStatus :=
  (evs.filter (fun e => e.1 == i)).map (fun e => e.2)

/-- The status write sequences a single row can receive during one worker
run: untouched, aborted during equilibration, or completed. -/
def allowedTrace (l : List RowStatus) : Prop :=
  l = [] ∨ l = [RowStatus.equilibrating] ∨
    l = [RowStatus.equilibrating, RowStatus.running, RowStatus.done]

/-- A device that the safe-state pass has processed: if its connection is
open it is disabled (when it has an enable capability) or zeroed
(when it does not). -/
def safeDev (p : DevParam) : Prop :=
  p.dev.isOpen = true →
    (p.dev.hasEnable = true → p.dev.isOn = false) ∧
    (p.dev.hasEnable = false → p.dev.sp = 0)

instance (p : DevParam) : Decidable (safeDev p) := by
  unfold safeDev; infer_instance

end Schedule

namespace Arduino

/-- One entry of `Arduino._variables`: the value dictionary stored by
`Arduino.add_variable` (`number`, normalized `access`, `type`,
`description`). -/
structure ArduinoVar where
  number : Int
  access : String
  type : String
  description : String
deriving DecidableEq, Repr

/-- The `Arduino._variables` dictionary: an insertion-ordered association
list with unique keys, as a Python `dict` is. -/
abbrev VarTable := List (String × ArduinoVar)

/-- Python `dict` assignment `self._variables[name] = value`: replace the
value of an existing key in place, otherwise append a new entry. -/
def dictSet : VarTable → String → ArduinoVar → VarTable
  | [], name, v => [(name, v)]
  | (k, w) :: t, name, v =>
    if k == name then (k, v) :: t else (k, w) :: dictSet t name v

/-- Python `dict` lookup `self._variables[name]` /
`name in self._variables.keys()`. -/
def lookupVar : VarTable → String → Option ArduinoVar
  | [], _ => none
  | (k, v) :: t, name => if k == name then some v else lookupVar t name

/-- The access-string normalization of `Arduino.add_variable`:
`'r'/'R' → 'r'`, `'w'/'W' → 'w'`, `'rw'/'RW' → 'rw'`, anything else is
invalid. -/
def normalizeAccess (access : String) : Option String :=
  if access == "r" || access == "R" then some "r"
  else if access == "w" || access == "W" then some "w"
  else if access == "rw" || access == "RW" then some "rw"
  else none

/-- The accepted `variable_type` strings of `Arduino.add_variable`. -/
def validTypes : List String := ["int", "float", "str", "none"]

/-- `Arduino.add_variable` (`Serial_Arduino.py` lines 67-118): returns the
updated variable table together with the emitted log lines.  The
"overriding" message is only informational; a non-positive or duplicate
number, an invalid access string or an invalid type string logs an error
and leaves the table unchanged. -/
def add_variable (t : VarTable) (name : String) (variable_number : Int)
    (access variable_type description : String) : VarTable × List LogMsg :=
  let overrideLog := if t.any (fun e => e.1 == name) then [LogMsg.overridingVariable name] else []
  if variable_number ≤ 0 then
    (t, overrideLog ++ [LogMsg.invalidVariableNumber variable_number])
  else if t.any (fun e => e.2.number == variable_number) then
    (t, overrideLog ++ [LogMsg.duplicateVariableNumber variable_number])
  else
    match normalizeAccess access with
    | none => (t, overrideLog ++ [LogMsg.invalidAccess access])
    | some a =>
      if validTypes.contains variable_type then
        (dictSet t name ⟨variable_number, a, variable_type, description⟩, overrideLog)
      else
        (t, overrideLog ++ [LogMsg.invalidType variable_type])

/-- The variable table created by `Arduino.__init__`, which registers the
`ID` variable. -/
def initTable : VarTable :=
  [("ID", ⟨1, "rw", "str", "Device identifier"⟩)]

/-- The `return_value` initialization of `Arduino.read_variable`
(lines 152-156): 0, then 0.0 for a float variable, `''` for a string
variable. -/
def zero_value (ty : String) : PyVal :=
  if ty == "float" then PyVal.vfloat 0
  else if ty == "str" then PyVal.vstr ""
  else PyVal.vint 0

/-- Whitespace trim on a character list (the strip performed by Python
`int(...)` / `float(...)` before parsing). -/
def trimChars (cs : List Char) : List Char :=
  ((cs.dropWhile Char.isWhitespace).reverse.dropWhile Char.isWhitespace).reverse

/-- Value of a digit string (most significant first). -/
def digitsVal (cs : List Char) : Nat :=
  cs.foldl (fun acc c => 10 * acc + (c.toNat - 48)) 0

/-- Parse a non-empty all-digit character list. -/
def parseDigits? (cs : List Char) : Option Nat :=
  if !cs.isEmpty && cs.all Char.isDigit then some (digitsVal cs) else none

/-- Python `int(s)` on a string: surrounding whitespace is stripped, then
an optional sign followed by digits is parsed; anything else raises
`ValueError` (modelled as `none`).  Exotic accepted forms (underscore
digit separators, non-ASCII digits) are not modelled. -/
def pyParseInt (s : String) : Option Int :=
  match trimChars s.data with
  | '-' :: rest => (parseDigits? rest).map (fun n => -(n : Int))
  | '+' :: rest => (parseDigits? rest).map (fun n => (n : Int))
  | cs => (parseDigits? cs).map (fun n => (n : Int))

/-- Split a character list at every dot (Python `str.split('.')`). -/
def splitDot : List Char → List (List Char)
  | [] => [[]]
  | c :: rest =>
    match splitDot rest with
    | [] => [[]]
    | h :: t => if c = '.' then [] :: h :: t else (c :: h) :: t

/-- Python `float(s)` on a string: surrounding whitespace is stripped,
then an optional sign and a decimal literal `digits`, `digits.digits`,
`digits.` or `.digits` is parsed; anything else raises `ValueError`
(modelled as `none`).  Exponent forms and `inf`/`nan` are not modelled. -/
def pyParseFloat (s : String) : Option Rat :=
  let cs0 := trimChars s.data
  let sgn : Rat := match cs0 with
    | '-' :: _ => -1
    | _ => 1
  let u : List Char := match cs0 with
    | '-' :: rest => rest
    | '+' :: rest => rest
    | cs => cs
  match splitDot u with
  | [ip] => (parseDigits? ip).map (fun n => sgn * (n : Rat))
  | [ip, fp] =>
    if (!ip.isEmpty || !fp.isEmpty) && ip.all Char.isDigit && fp.all Char.isDigit then
      some (sgn * ((digitsVal ip : Rat) + (digitsVal fp : Rat) / (10 : Rat) ^ fp.length))
    else none
  | _ => none

/-- Python `str.rstrip()`: drop trailing whitespace. -/
def rstrip (s : String) : String :=
  String.mk (s.data.reverse.dropWhile Char.isWhitespace).reverse

/-- `Arduino.read_variable` (`Serial_Arduino.py` lines 141-182).

Oracle arguments: `pending` is what `flush_buffer_in` finds in the
incoming buffer, `line` is what `readline` returns (`some ""` on a read
timeout) or `none` when the serial write/read raises `SerialException`.

Control flow mirrors the source: unknown name returns the plain integer 0;
a write-only variable returns the type-appropriate zero; a timeout returns
the type-appropriate zero; a successful read decodes per the declared
type — but on a decode failure the `ValueError` handler falls through to
`return return_value` AFTER `return_value` was overwritten with the raw
response string, so the raw string is returned. -/
def read_variable (vars : VarTable) (name : String) (pending : String)
    (line : Option String) : List LogMsg × PyVal :=
  match lookupVar vars name with
  | none => ([LogMsg.unknownVariable name], PyVal.vint 0)
  | some v =>
    let rv0 := zero_value v.type
    if v.access == "w" || v.access == "W" then
      ([LogMsg.writeOnlyVariable name], rv0)
    else
      let plog := if pending == "" then [] else [LogMsg.unexpectedData pending]
      match line with
      | none => (plog ++ [LogMsg.readFailure name], rv0)
      | some rv =>
        if rv == "" then (plog, rv0)
        else if v.type == "float" then
          match pyParseFloat rv with
          | some q => (plog, PyVal.vfloat q)
          | none => (plog ++ [LogMsg.readFailure name], PyVal.vstr rv)
        else if v.type == "int" then
          match pyParseInt rv with
          | some n => (plog, PyVal.vint n)
          | none => (plog ++ [LogMsg.readFailure name], PyVal.vstr rv)
        else if v.type == "str" then (plog, PyVal.vstr (rstrip rv))
        else (plog, PyVal.vstr rv)

end Arduino

namespace SerialDevices

/-- Python truthiness of a string: `bool('') = False`. -/
def strTruthy (s : String) : Bool := !(s == "")

/-- Python truthiness of an integer: `bool(0) = False`. -/
def natTruthy (n : Nat) : Bool := !(n == 0)

/-- The descriptor of a candidate port, as returned by
`serial.tools.list_ports.comports()`: each field may be absent (`None`). -/
structure PortData where
  serial_number : Option String
  vid : Option Nat
  pid : Option Nat
  manufacturer : Option String
  device : String
deriving DecidableEq, Repr

/-- A known device identity as stored in `known_devices.json`: `none`
models a key that is not present in the JSON object. -/
structure KnownDevice where
  serial_number : Option String
  vid : Option Nat
  pid : Option Nat
  manufacturer : Option String
  custom_id : Option String
deriving DecidableEq, Repr

/-- `KnownDevices._compare_device_parameter` (`Serial_devices.py` lines
117-132): if the key is absent from the known device the parameter
matches iff the port parameter is falsy (`return not bool(...)`); if the
port parameter is truthy the values are compared; a falsy port parameter
never matches a recorded one. -/
def compare_device_parameter (truthy : α → Bool) [BEq α]
    (portParam : Option α) (knownParam : Option α) : Bool :=
  match knownParam with
  | none =>
    match portParam with
    | none => true
    | some p => !(truthy p)
  | some k =>
    match portParam with
    | none => false
    | some p => if truthy p then p == k else false

/-- `KnownDevices._compare` (`Serial_devices.py` lines 134-158).  `live`
is the oracle for `self._read_custom_id(device_data.device)`: the custom
id read over a transient serial connection, or `none` upon failure
(a Python `str == None` comparison is `False`). -/
def compareKnown (port : PortData) (kd : KnownDevice) (live : Option String) : Bool :=
  if compare_device_parameter strTruthy port.serial_number kd.serial_number = false then false
  else if compare_device_parameter natTruthy port.vid kd.vid = false then false
  else if compare_device_parameter natTruthy port.pid kd.pid = false then false
  else if compare_device_parameter strTruthy port.manufacturer kd.manufacturer = false then false
  else if kd.serial_number == none && !(kd.custom_id == none) then
    match kd.custom_id, live with
    | some cid, some l => cid == l
    | some _, none => false
    | none, _ => false
  else true

/-- One identity field of the matching rule as the specification words it:
a field the identity records must be present on the port with the same
value; a field the identity does not record must be absent on the port
as well. -/
def fieldMatchesSpec [BEq α] (knownParam : Option α) (portParam : Option α) : Bool :=
  match knownParam, portParam with
  | some k, some p => p == k
  | some _, none => false
  | none, some _ => false
  | none, none => true

/-- The complete matching rule as the specification words it: every
recorded field equal on the port, every absent field absent on the port,
and when no serial number is recorded but a custom id is, the custom id
read live from the device must equal the recorded one. -/
def matchesSpec (port : PortData) (kd : KnownDevice) (live : Option String) : Bool :=
  fieldMatchesSpec kd.serial_number port.serial_number &&
  fieldMatchesSpec kd.vid port.vid &&
  fieldMatchesSpec kd.pid port.pid &&
  fieldMatchesSpec kd.manufacturer port.manufacturer &&
  (if kd.serial_number == none && !(kd.custom_id == none) then
    match kd.custom_id, live with
    | some cid, some l => l == cid
    | some _, none => false
    | none, _ => false
  else true)

/-- A port descriptor whose present fields are truthy (pyserial reports
absent descriptor fields as `None`, not as `''` or `0`). -/
def wfPort (p : PortData) : Prop :=
  p.serial_number ≠ some "" ∧ p.vid ≠ some 0 ∧ p.pid ≠ some 0 ∧ p.manufacturer ≠ some ""

instance (p : PortData) : Decidable (wfPort p) := by
  unfold wfPort; infer_instance

end SerialDevices

namespace Modbus

/-- Little-endian byte decomposition of a value into `n` bytes
(`struct.pack` with format character of byte size `n`). -/
def leBytes : Nat → Nat → List Nat
  | 0, _ => []
  | n + 1, v => v % 256 :: leBytes n (v / 256)

/-- Value of a little-endian byte list (`struct.unpack` with `<`). -/
def leValue : List Nat → Nat
  | [] => 0
  | b :: bs => b + 256 * leValue bs

/-- Value of a big-endian byte list (`struct.unpack` with `>`). -/
def beValue (bs : List Nat) : Nat := leValue bs.reverse

/-- The byte sizes of the `StructSizeUnsigned` enum (`B`, `H`, `L`, `Q`);
`StructSizeUnsigned(n)` for any other `n` raises `ValueError`. -/
def structSizes : List Nat := [1, 2, 4, 8]

/-- `struct.pack("<{len}{letter}", *words)` where `letter` has byte size
`size`: each word must fit in `size` bytes, the result is the
concatenation of the little-endian encodings. -/
def packLE (words : List Nat) (size : Nat) : Except String (List Nat) :=
  if words.all (fun w => w < 2 ^ (8 * size)) then
    Except.ok ((words.map (leBytes size)).flatten)
  else Except.error "struct.error: argument out of range"

/-- `MappedModbusClient._ntoh` (`mapped_modbus_client.py` lines 123-128):
left-pad `words` to `insize` entries, pack each entry as an `insize`-byte
little-endian field, then unpack the whole buffer as ONE little-endian
`outsize*2`-byte value.  `struct.unpack` demands that the buffer length
equal the format size exactly. -/
def ntoh (words : List Nat) (insize outsize : Nat) : Except String Nat :=
  if structSizes.contains insize = false then
    Except.error "ValueError: not a valid StructSizeUnsigned"
  else
    let padded := List.replicate (insize - words.length) 0 ++ words
    match packLE padded insize with
    | Except.error e => Except.error e
    | Except.ok bytes =>
      if structSizes.contains (outsize * 2) = false then
        Except.error "ValueError: not a valid StructSizeUnsigned"
      else if bytes.length == outsize * 2 then
        Except.ok (leValue bytes)
      else
        Except.error "struct.error: unpack requires a buffer of outsize*2 bytes"

/-- `MappedModbusClient._hton` (`mapped_modbus_client.py` lines 116-121):
same packing as `ntoh`, but the final unpack uses `>` (big-endian), so
e.g. `hton [code, data] 1 1 = code * 256 + data` for byte-sized inputs. -/
def hton (words : List Nat) (insize outsize : Nat) : Except String Nat :=
  if structSizes.contains insize = false then
    Except.error "ValueError: not a valid StructSizeUnsigned"
  else
    let padded := List.replicate (insize - words.length) 0 ++ words
    match packLE padded insize with
    | Except.error e => Except.error e
    | Except.ok bytes =>
      if structSizes.contains (outsize * 2) = false then
        Except.error "ValueError: not a valid StructSizeUnsigned"
      else if bytes.length == outsize * 2 then
        Except.ok (beValue bytes)
      else
        Except.error "struct.error: unpack requires a buffer of outsize*2 bytes"

/-- An `int`-format entry of the `E5CRegisters` register map (the
`data_format` of such entries is `'int16'`; none of them declares a
`'data'` key). -/
structure IntRegister where
  address : Nat
  register_type : String
  data_format : String
  si_adj : Rat
  data_length : Nat
deriving Repr

/-- The `'int' in register['data_format']` branch of
`MappedModbusClient._read_register` (`mapped_modbus_client.py` lines
143-155).  `resp` is the oracle for the raw register words the Modbus
read returns; `_read` yields `None` for a non-`holding` register type,
and `None.registers` raises `AttributeError`.

For `data_length == 1` the code evaluates `val.registers[0] /
register['si_adj']`.  For `data_length == 2` it first calls
`self._ntoh(val.registers, 2, 1)`, which always raises `struct.error`
(it packs at least 4 bytes and unpacks a 2-byte format); were that ever
to succeed, `register['data']` would raise `KeyError` (the int16 table
entries declare no `'data'` key) and the final `val.registers[0]` on an
integer would raise `AttributeError`.  For any other `data_length`,
`val` stays `None` and `None.registers` raises. -/
def read_register_int (reg : IntRegister) (resp : List Nat) : Except String Rat :=
  let readv : Option (List Nat) :=
    if reg.register_type == "holding" then some resp else none
  if reg.data_length == 1 then
    match readv with
    | some (w :: _) => Except.ok ((w : Rat) / reg.si_adj)
    | some [] => Except.error "IndexError: list index out of range"
    | none => Except.error "AttributeError: NoneType object has no attribute registers"
  else if reg.data_length == 2 then
    match readv with
    | some words =>
      match ntoh words reg.data_length 1 with
      | Except.ok _ => Except.error "KeyError: data"
      | Except.error e => Except.error e
    | none => Except.error "AttributeError: NoneType object has no attribute registers"
  else
    Except.error "AttributeError: NoneType object has no attribute registers"

/-- The `'data'` entry of a command register of the `E5CRegisters` map:
either a plain data byte (the `command_action` registers) or an `Enum`
of mode name / data byte pairs (the `command` registers). -/
inductive CommandData
  | byte (b : Nat)
  | menum (members : List (String × Nat))
deriving DecidableEq, Repr

/-- A `command` / `command_action` entry of the `E5CRegisters` register
map, as used by `MappedModbusClient.write_command`. -/
structure CommandRegister where
  command_code : Nat
  register_type : String
  data : CommandData
  description : String
deriving DecidableEq, Repr

/-- The write response returned by `self.client.write_register`:
whether `res.isError()` holds, and whether the response object carries
`registers` / `bits` attributes (checked via `hasattr`). -/
structure WriteResponse where
  isError : Bool
  registersAttr : Option (List Nat)
  bitsAttr : Option (List Bool)
deriving DecidableEq, Repr

/-- Membership test and lookup `register['data'][mode]` /
`mode in register['data'].__members__` over the enum members. -/
def lookupMember : List (String × Nat) → String → Option Nat
  | [], _ => none
  | (k, v) :: t, mode => if k == mode then some v else lookupMember t mode

/-- Character-list prefix test. -/
def isPrefixChars : List Char → List Char → Bool
  | [], _ => true
  | _ :: _, [] => false
  | a :: as, b :: bs => a == b && isPrefixChars as bs

/-- Substring test on character lists: the pattern is a prefix of some
suffix. -/
def containsAux (pat : List Char) : List Char → Bool
  | [] => isPrefixChars pat []
  | c :: rest => isPrefixChars pat (c :: rest) || containsAux pat rest

/-- Python `'action' in register['register_type']`: substring test. -/
def strContains (s pat : String) : Bool :=
  containsAux pat.data s.data

/-- The log lines `MappedModbusClient.write_command` emits when the write
response indicates a device-side error (lines 250-256): the error line,
the response detail, and the `registers` / `bits` attributes when
present.  Nothing is logged for a successful response. -/
def errorLogs (command mode : String) (res : WriteResponse) : List LogMsg :=
  if res.isError then
    [LogMsg.modbusWriteError command mode, LogMsg.modbusWriteResponse]
      ++ (match res.registersAttr with
          | some _ => [LogMsg.modbusWriteRegisters]
          | none => [])
      ++ (match res.bitsAttr with
          | some _ => [LogMsg.modbusWriteBits]
          | none => [])
  else []

/-- `MappedModbusClient.write_command` (`mapped_modbus_client.py` lines
225-256).  `command` is the register name (used only in log text), `res`
is the oracle for the Modbus write response.  On success the result
carries the 16-bit value written to register 0x0000 and the emitted log
lines; `Except.error` models a raised exception (`ParameterException`
when the mode argument is invalid). -/
def write_command (reg : CommandRegister) (command mode : String)
    (res : WriteResponse) : Except String (Nat × List LogMsg) :=
  if strContains reg.register_type "action" then
    if mode == "" then
      match reg.data with
      | CommandData.byte b =>
        match hton [reg.command_code, b] 1 1 with
        | Except.ok v => Except.ok (v, errorLogs command mode res)
        | Except.error e => Except.error e
      | CommandData.menum _ =>
        Except.error "struct.error: required argument is not an integer"
    else Except.error "ParameterException"
  else
    match reg.data with
    | CommandData.menum members =>
      match lookupMember members mode with
      | some dv =>
        match hton [reg.command_code, dv] 1 1 with
        | Except.ok v => Except.ok (v, errorLogs command mode res)
        | Except.error e => Except.error e
      | none => Except.error "ParameterException"
    | CommandData.byte _ =>
      Except.error "AttributeError: int object has no attribute __members__"

/-- The data bytes a command register packs all fit in one byte. -/
def dataInRange : CommandData → Prop
  | CommandData.byte b => b < 256
  | CommandData.menum members => ∀ m ∈ members, m.2 < 256

/-- A command register shaped as in the `E5CRegisters` table: an
`action` register carries a plain data byte, a plain `command` register
carries an enum. -/
def wellShaped (reg : CommandRegister) : Prop :=
  match reg.data with
  | CommandData.byte _ => strContains reg.register_type "action" = true
  | CommandData.menum _ => strContains reg.register_type "action" = false

instance (d : CommandData) : Decidable (dataInRange d) := by
  cases d <;> (unfold dataInRange; infer_instance)

instance (reg : CommandRegister) : Decidable (wellShaped reg) := by
  unfold wellShaped
  cases reg.data <;> infer_instance

end Modbus

/-! Concrete states used by the witness and counterexample theorems. -/

/-- A connected device with an enable capability, currently on. -/
def exDevEnable : Schedule.Device :=
  { isOpen := true, hasEnable := true, isOn := true, sp := 5 }

/-- A connected device without an enable capability. -/
def exDevPlain : Schedule.Device :=
  { isOpen := true, hasEnable := false, isOn := false, sp := 3 }

/-- A device whose connection is not open. -/
def exDevClosed : Schedule.Device :=
  { isOpen := false, hasEnable := true, isOn := true, sp := 7 }

/-- Device-linked parameters: a light source (off during equilibration),
a plain setpoint device, and a disconnected device. -/
def exParams : List Schedule.DevParam :=
  [ { name := "Light intensity lamp", offDuringEquilibration := true, dev := exDevEnable },
    { name := "Pressure BPR", offDuringEquilibration := false, dev := exDevPlain },
    { name := "Temperature TC", offDuringEquilibration := false, dev := exDevClosed } ]

/-- A schedule row in the `ready` state. -/
def exRow (title : String) : Schedule.Row :=
  { status := Schedule.RowStatus.ready, title := title, equilibration := 1,
    duration := 2, values := fun _ => 2 }

/-- A freshly loaded two-row schedule, not yet started. -/
def exSched : Schedule.ScheduleState :=
  { devParams := exParams, rows := [exRow "run A", exRow "run B"],
    running := false, threadAlive := false, events := [], log := [] }

/-- A schedule whose only linked device is not connected (used to show the
safe-state pass logs nothing for a skipped device). -/
def exClosedSched : Schedule.ScheduleState :=
  { devParams := [{ name := "Temperature TC", offDuringEquilibration := false,
                    dev := exDevClosed }],
    rows := [], running := false, threadAlive := false, events := [], log := [] }

/-- Stop oracle: an external `stop()` clears the running flag during the
equilibration wait of row 1. -/
def exStopE : Nat → Bool := fun j => j == 1

/-- Stop oracle: no `stop()` during any duration wait. -/
def exStopR : Nat → Bool := fun _ => false

/-- A variable table with the default `ID` variable plus a read-only
integer variable. -/
def exVars : Arduino.VarTable :=
  [("ID", ⟨1, "rw", "str", "Device identifier"⟩),
   ("X", ⟨5, "r", "int", "an integer variable"⟩)]

/-- A candidate port with a full descriptor. -/
def exPort : SerialDevices.PortData :=
  { serial_number := some "ABC123", vid := some 9025, pid := some 67,
    manufacturer := some "Arduino", device := "COM5" }

/-- A known identity recording the same serial number, vid, pid and
manufacturer. -/
def exKnown : SerialDevices.KnownDevice :=
  { serial_number := some "ABC123", vid := some 9025, pid := some 67,
    manufacturer := some "Arduino", custom_id := none }

/-- The `pv` register of the `E5CRegisters` table (single-word int). -/
def exIntReg1 : Modbus.IntRegister :=
  { address := 0x2000, register_type := "holding", data_format := "int16",
    si_adj := 10, data_length := 1 }

/-- A hypothetical multi-word int register (no table entry has
`data_length` 2, but the `_read_register` int branch handles it). -/
def exIntReg2 : Modbus.IntRegister :=
  { address := 0x2000, register_type := "holding", data_format := "int16",
    si_adj := 10, data_length := 2 }

/-- The `run_stop` command register of the `E5CRegisters` table. -/
def exRunStop : Modbus.CommandRegister :=
  { command_code := 0x01, register_type := "command",
    data := Modbus.CommandData.menum [("RUN", 0x00), ("STOP", 0x01)],
    description := "RUN/STOP" }

/-- The `software_reset` action register of the `E5CRegisters` table. -/
def exSoftwareReset : Modbus.CommandRegister :=
  { command_code := 0x06, register_type := "command_action",
    data := Modbus.CommandData.byte 0x00,
    description := "Software reset" }

/-- A write response reporting a device-side error, with a `registers`
attribute and no `bits` attribute. -/
def exErrResponse : Modbus.WriteResponse :=
  { isError := true, registersAttr := some [0x8101], bitsAttr := none }

/-- A write response reporting success. -/
def exOkResponse : Modbus.WriteResponse :=
  { isError := false, registersAttr := some [0x0100], bitsAttr := none }

/-- Structural invariant of `Arduino._variables`: keys are unique (it is
a Python `dict`), registered variable numbers are unique, and every
registered variable number is positive. -/
def Arduino.wellFormed (t : Arduino.VarTable) : Prop :=
  (t.map Prod.fst).Nodup ∧
  (t.map (fun e => e.2.number)).Nodup ∧
  ∀ e ∈ t, 0 < e.2.number

instance (t : Arduino.VarTable) : Decidable (Arduino.wellFormed t) := by
  unfold Arduino.wellFormed; infer_instance

/-! Helper lemmas. -/

theorem listModify_length (f : α → α) (n : Nat) (l : List α) :
    (listModify f n l).length = l.length := by
  induction l generalizing n with
  | nil => cases n <;> rfl
  | cons a as ih =>
    cases n with
    | zero => rfl
    | succ m => simp [listModify, ih m]

theorem listModify_getElem? (f : α → α) (n m : Nat) (l : List α) :
    (listModify f n l)[m]? = if m = n then (l[m]?).map f else l[m]? := by
  induction l generalizing n m with
  | nil => simp [listModify]
  | cons a as ih =>
    cases n with
    | zero =>
      cases m with
      | zero => simp [listModify]
      | succ m2 => simp [listModify]
    | succ n2 =>
      cases m with
      | zero => simp [listModify]
      | succ m2 => simp [listModify, ih n2 m2]

namespace Schedule

theorem rowEvents_append (a b : List (Nat × RowStatus)) (i : Nat) :
    rowEvents (a ++ b) i = rowEvents a i ++ rowEvents b i := by
  simp [rowEvents]

theorem rowEvents_single (i j : Nat) (st : RowStatus) :
    rowEvents [(i, st)] j = if i = j then [st] else [] := by
  by_cases h : i = j <;> simp [rowEvents, h]

theorem setRunStatus_events (s : ScheduleState) (i : Nat) (st : RowStatus) :
    (setRunStatus s i st).events = s.events ++ [(i, st)] := rfl

theorem setRunStatus_rows (s : ScheduleState) (i : Nat) (st : RowStatus) :
    (setRunStatus s i st).rows
      = listModify (fun r => { r with status := st }) i s.rows := rfl

theorem setRunStatus_devParams (s : ScheduleState) (i : Nat) (st : RowStatus) :
    (setRunStatus s i st).devParams = s.devParams := rfl

theorem setRunStatus_running (s : ScheduleState) (i : Nat) (st : RowStatus) :
    (setRunStatus s i st).running = s.running := rfl

theorem logRunningTitle_events (s : ScheduleState) (i : Nat) :
    (logRunningTitle s i).events = s.events := by
  unfold logRunningTitle; split <;> rfl

theorem logRunningTitle_rows (s : ScheduleState) (i : Nat) :
    (logRunningTitle s i).rows = s.rows := by
  unfold logRunningTitle; split <;> rfl

theorem logRunningTitle_devParams (s : ScheduleState) (i : Nat) :
    (logRunningTitle s i).devParams = s.devParams := by
  unfold logRunningTitle; split <;> rfl

theorem logRunningTitle_running (s : ScheduleState) (i : Nat) :
    (logRunningTitle s i).running = s.running := by
  unfold logRunningTitle; split <;> rfl

theorem applyRowState_events (s : ScheduleState) (i : Nat) (e : Bool) :
    (applyRowState s i e).events = s.events := by
  unfold applyRowState; split <;> rfl

theorem applyRowState_rows (s : ScheduleState) (i : Nat) (e : Bool) :
    (applyRowState s i e).rows = s.rows := by
  unfold applyRowState; split <;> rfl

theorem applyRowState_running (s : ScheduleState) (i : Nat) (e : Bool) :
    (applyRowState s i e).running = s.running := by
  unfold applyRowState; split <;> rfl

theorem pauseStop_events (b : Bool) (s : ScheduleState) :
    (pauseStop b s).events = s.events := by
  cases b <;> rfl

theorem pauseStop_rows (b : Bool) (s : ScheduleState) :
    (pauseStop b s).rows = s.rows := by
  cases b <;> rfl

theorem pauseStop_devParams (b : Bool) (s : ScheduleState) :
    (pauseStop b s).devParams = s.devParams := by
  cases b <;> rfl

theorem pauseStop_running (b : Bool) (s : ScheduleState) :
    (pauseStop b s).running = if b then false else s.running := by
  cases b <;> rfl

theorem safestate_rows (s : ScheduleState) : (safestate s).rows = s.rows := rfl

theorem safestate_events (s : ScheduleState) : (safestate s).events = s.events := rfl

theorem safestate_log (s : ScheduleState) : (safestate s).log = s.log := rfl

theorem safestate_devParams (s : ScheduleState) :
    (safestate s).devParams = s.devParams.map safestateDev := rfl

theorem applyParam_closed (e : Bool) (p : DevParam) (x : Rat)
    (h : p.dev.isOpen = false) :
    applyParam e p x = (p, [LogMsg.cannotSetParameter p.name]) := by
  simp [applyParam, h]

theorem applyParams_fst_length (e : Bool) (v : Nat → Rat) (k : Nat) (ps : List DevParam) :
    ((applyParams e v k ps).1).length = ps.length := by
  induction ps generalizing k with
  | nil => rfl
  | cons p ps ih => simp [applyParams, ih]

theorem applyParams_getElem? (e : Bool) (v : Nat → Rat) (k j : Nat) (ps : List DevParam) :
    ((applyParams e v k ps).1)[j]?
      = (ps[j]?).map (fun p => (applyParam e p (v (k + j))).1) := by
  induction ps generalizing k j with
  | nil => simp [applyParams]
  | cons p ps ih =>
    cases j with
    | zero => simp [applyParams]
    | succ j2 =>
      have harith : k + (j2 + 1) = (k + 1) + j2 := by omega
      simp only [applyParams, List.getElem?_cons_succ]
      rw [ih (k + 1) j2, harith]

theorem applyRowState_devParams_getElem? (s : ScheduleState) (i : Nat) (e : Bool) (j : Nat) :
    (applyRowState s i e).devParams[j]?
      = match s.rows[i]? with
        | none => s.devParams[j]?
        | some r => (s.devParams[j]?).map (fun p => (applyParam e p (r.values j)).1) := by
  unfold applyRowState
  cases h : s.rows[i]? with
  | none => simp [h]
  | some r => simp [h, applyParams_getElem?]

theorem applyRowState_closed (s : ScheduleState) (i : Nat) (e : Bool) (j : Nat) (p : DevParam)
    (hj : s.devParams[j]? = some p) (hcl : p.dev.isOpen = false) :
    (applyRowState s i e).devParams[j]? = some p := by
  rw [applyRowState_devParams_getElem?]
  cases h : s.rows[i]? with
  | none => exact hj
  | some r => simp [hj, applyParam_closed e p _ hcl]

theorem safestateDev_safe (p : DevParam) : safeDev (safestateDev p) := by
  rcases p with ⟨n, oe, ⟨o, he, onoff, sp⟩⟩
  cases o <;> cases he <;> simp [safestateDev, safeDev]

theorem safestateDev_isOpen (p : DevParam) :
    (safestateDev p).dev.isOpen = p.dev.isOpen := by
  unfold safestateDev; split_ifs <;> rfl

theorem safestateDev_idem (p : DevParam) :
    safestateDev (safestateDev p) = safestateDev p := by
  rcases p with ⟨n, oe, ⟨o, he, onoff, sp⟩⟩
  cases o <;> cases he <;> simp [safestateDev]

theorem safestateDev_closed (p : DevParam) (h : p.dev.isOpen = false) :
    safestateDev p = p := by
  simp [safestateDev, h]

theorem safestateDev_of_safe (p : DevParam) (h : safeDev p) : safestateDev p = p := by
  rcases p with ⟨n, oe, ⟨o, he, onoff, sp⟩⟩
  cases o with
  | false => simp [safestateDev]
  | true =>
    cases he with
    | false =>
      have hz : sp = 0 := (h rfl).2 rfl
      simp [safestateDev, hz]
    | true =>
      have hz : onoff = false := (h rfl).1 rfl
      simp [safestateDev, hz]

theorem runStep_snd_rows_length (se sr : Nat → Bool) (i : Nat) (s : ScheduleState) :
    ((runStep se sr i s).2).rows.length = s.rows.length := by
  simp only [runStep]
  split_ifs <;>
    simp [setRunStatus_rows, pauseStop_rows, applyRowState_rows, logRunningTitle_rows,
      listModify_length]

theorem runStep_rows_getElem?_ne (se sr : Nat → Bool) (i : Nat) (s : ScheduleState)
    (j : Nat) (h : j ≠ i) :
    ((runStep se sr i s).2.rows)[j]? = s.rows[j]? := by
  simp only [runStep]
  split_ifs <;>
    simp [setRunStatus_rows, pauseStop_rows, applyRowState_rows, logRunningTitle_rows,
      listModify_getElem?, h]

theorem runStep_events (se sr : Nat → Bool) (i : Nat) (s : ScheduleState) :
    ((runStep se sr i s).1 = false ∧
      (runStep se sr i s).2.events = s.events ++ [(i, RowStatus.equilibrating)]) ∨
    (runStep se sr i s).2.events
      = s.events ++ [(i, RowStatus.equilibrating), (i, RowStatus.running), (i, RowStatus.done)] := by
  simp only [runStep]
  split_ifs
  · left
    exact ⟨rfl, by simp [pauseStop_events, applyRowState_events, setRunStatus_events,
      logRunningTitle_events]⟩
  · right
    simp [pauseStop_events, applyRowState_events, setRunStatus_events, logRunningTitle_events]
  · right
    simp [pauseStop_events, applyRowState_events, setRunStatus_events, logRunningTitle_events]

theorem runStep_no_stop_continue (se sr : Nat → Bool) (i : Nat) (s : ScheduleState)
    (hr : s.running = true) (he : se i = false) (hd : sr i = false) :
    (runStep se sr i s).1 = true ∧ (runStep se sr i s).2.running = true := by
  simp [runStep, pauseStop_running, he, hd, applyRowState_running, setRunStatus_running,
    logRunningTitle_running, hr]

theorem runStep_stop_equil (se sr : Nat → Bool) (i : Nat) (s : ScheduleState)
    (hstop : se i = true) :
    (runStep se sr i s).1 = false ∧
    (runStep se sr i s).2.events = s.events ++ [(i, RowStatus.equilibrating)] ∧
    (runStep se sr i s).2.rows
      = listModify (fun r => { r with status := RowStatus.equilibrating }) i s.rows := by
  simp [runStep, pauseStop_running, hstop, pauseStop_events, pauseStop_rows,
    applyRowState_events, applyRowState_rows, setRunStatus_events, setRunStatus_rows,
    logRunningTitle_events, logRunningTitle_rows]

theorem runStep_closed (se sr : Nat → Bool) (i : Nat) (s : ScheduleState) (j : Nat)
    (p : DevParam) (hj : s.devParams[j]? = some p) (hcl : p.dev.isOpen = false) :
    (runStep se sr i s).2.devParams[j]? = some p := by
  have h3 : ∀ (t : ScheduleState) (st : RowStatus) (e b : Bool),
      t.devParams[j]? = some p →
      (pauseStop b (applyRowState (setRunStatus t i st) i e)).devParams[j]? = some p := by
    intro t st e b ht
    rw [pauseStop_devParams]
    exact applyRowState_closed _ _ _ _ _ (by rw [setRunStatus_devParams]; exact ht) hcl
  have h1 : (logRunningTitle s i).devParams[j]? = some p := by
    rw [logRunningTitle_devParams]; exact hj
  have h4 : ∀ (t : ScheduleState) (b : Bool),
      t.devParams[j]? = some p →
      (setRunStatus (pauseStop b (applyRowState (setRunStatus t i RowStatus.running) i false))
        i RowStatus.done).devParams[j]? = some p := by
    intro t b ht
    rw [setRunStatus_devParams, pauseStop_devParams]
    exact applyRowState_closed _ _ _ _ _ (by rw [setRunStatus_devParams]; exact ht) hcl
  simp only [runStep]
  split_ifs
  · exact h3 _ _ _ _ h1
  · exact h4 _ _ (h3 _ _ _ _ h1)
  · exact h4 _ _ (h3 _ _ _ _ h1)

theorem runLoop_rows_length (se sr : Nat → Bool) (fuel : Nat) :
    ∀ (i : Nat) (s : ScheduleState),
      (runLoop se sr fuel i s).rows.length = s.rows.length := by
  induction fuel with
  | zero => intro i s; rfl
  | succ n ih =>
    intro i s
    simp only [runLoop]
    split
    · split
      · rw [ih]; exact runStep_snd_rows_length se sr i s
      · exact runStep_snd_rows_length se sr i s
    · rfl

theorem runLoop_closed (se sr : Nat → Bool) (fuel : Nat) :
    ∀ (i : Nat) (s : ScheduleState) (j : Nat) (p : DevParam),
      s.devParams[j]? = some p → p.dev.isOpen = false →
      (runLoop se sr fuel i s).devParams[j]? = some p := by
  induction fuel with
  | zero => intro i s j p hj _; exact hj
  | succ n ih =>
    intro i s j p hj hcl
    simp only [runLoop]
    split
    · split
      · exact ih _ _ _ _ (runStep_closed se sr i s j p hj hcl) hcl
      · exact runStep_closed se sr i s j p hj hcl
    · exact hj

theorem runLoop_allowed (se sr : Nat → Bool) (fuel : Nat) :
    ∀ (i : Nat) (s : ScheduleState),
      (∀ j, allowedTrace (rowEvents s.events j)) →
      (∀ j, i ≤ j → rowEvents s.events j = []) →
      ∀ j, allowedTrace (rowEvents (runLoop se sr fuel i s).events j) := by
  induction fuel with
  | zero => intro i s h1 _ j; exact h1 j
  | succ n ih =>
    intro i s h1 h2 j
    simp only [runLoop]
    split
    · rcases runStep_events se sr i s with ⟨hc, hev⟩ | hev
      · rw [hc]
        simp only [Bool.false_eq_true, if_false]
        rw [hev, rowEvents_append, rowEvents_single]
        by_cases hij : i = j
        · rw [if_pos hij, h2 j (le_of_eq hij)]
          exact Or.inr (Or.inl rfl)
        · rw [if_neg hij, List.append_nil]
          exact h1 j
      · have h1' : ∀ j2, allowedTrace (rowEvents (runStep se sr i s).2.events j2) := by
          intro j2
          rw [hev, rowEvents_append]
          by_cases hij : i = j2
          · have : rowEvents s.events j2 = [] := h2 j2 (le_of_eq hij)
            rw [this, List.nil_append]
            simp [rowEvents, hij]
            exact Or.inr (Or.inr rfl)
          · have : rowEvents [(i, RowStatus.equilibrating), (i, RowStatus.running),
                (i, RowStatus.done)] j2 = [] := by
              simp [rowEvents, hij]
            rw [this, List.append_nil]
            exact h1 j2
        split
        · refine ih (i + 1) (runStep se sr i s).2 h1' ?_ j
          intro j2 hj2
          rw [hev, rowEvents_append]
          have hne : i ≠ j2 := by omega
          have : rowEvents [(i, RowStatus.equilibrating), (i, RowStatus.running),
              (i, RowStatus.done)] j2 = [] := by
            simp [rowEvents, hne]
          rw [this, List.append_nil]
          exact h2 j2 (by omega)
        · exact h1' j
    · exact h1 j

theorem runLoop_stop_mid_equil (se sr : Nat → Bool) (i : Nat) (fuel : Nat) :
    ∀ (k : Nat) (s : ScheduleState),
      k ≤ i → i < k + fuel → i < s.rows.length → s.running = true →
      se i = true →
      (∀ j, k ≤ j → j < i → se j = false ∧ sr j = false) →
      (∀ j, k ≤ j → rowEvents s.events j = []) →
      ((runLoop se sr fuel k s).rows[i]?).map Row.status = some RowStatus.equilibrating ∧
      rowEvents (runLoop se sr fuel k s).events i = [RowStatus.equilibrating] ∧
      (∀ j, i < j → rowEvents (runLoop se sr fuel k s).events j = [] ∧
        ((runLoop se sr fuel k s).rows[j]?).map Row.status
          = (s.rows[j]?).map Row.status) := by
  induction fuel with
  | zero => intro k s hki hif _ _ _ _ _; omega
  | succ n ih =>
    intro k s hki hif hilen hrun hstop hnostop hempty
    simp only [runLoop]
    rw [if_pos (by omega : k < s.rows.length)]
    by_cases hk : k = i
    · subst hk
      obtain ⟨hflag, hev, hrows⟩ := runStep_stop_equil se sr k s hstop
      rw [hflag]
      simp only [Bool.false_eq_true, if_false]
      refine ⟨?_, ?_, ?_⟩
      · rw [hrows, listModify_getElem?, if_pos rfl,
          List.getElem?_eq_getElem hilen]
        rfl
      · rw [hev, rowEvents_append, hempty k le_rfl, List.nil_append,
          rowEvents_single, if_pos rfl]
      · intro j hj
        constructor
        · rw [hev, rowEvents_append, hempty j (by omega), List.nil_append,
            rowEvents_single, if_neg (by omega)]
        · rw [hrows, listModify_getElem?, if_neg (by omega)]
    · have hnse : se k = false := (hnostop k le_rfl (by omega)).1
      have hnsr : sr k = false := (hnostop k le_rfl (by omega)).2
      obtain ⟨hflag, hrun2⟩ := runStep_no_stop_continue se sr k s hrun hnse hnsr
      rw [hflag]
      simp only [if_true]
      have hev : (runStep se sr k s).2.events
          = s.events ++ [(k, RowStatus.equilibrating), (k, RowStatus.running),
              (k, RowStatus.done)] := by
        rcases runStep_events se sr k s with ⟨hc, _⟩ | hev2
        · rw [hflag] at hc; cases hc
        · exact hev2
      have hres := ih (k + 1) (runStep se sr k s).2 (by omega) (by omega)
        (by rw [runStep_snd_rows_length]; exact hilen) hrun2 hstop
        (by intro j hj1 hj2; exact hnostop j (by omega) hj2)
        (by
          intro j hj
          have hkj : ¬ k = j := by omega
          rw [hev, rowEvents_append, hempty j (by omega), List.nil_append]
          simp [rowEvents, hkj])
      refine ⟨hres.1, hres.2.1, ?_⟩
      intro j hj
      refine ⟨(hres.2.2 j hj).1, ?_⟩
      rw [(hres.2.2 j hj).2, runStep_rows_getElem?_ne se sr k s j (by omega)]

end Schedule

namespace Arduino

theorem dictSet_lookup (t : VarTable) (name : String) (v : ArduinoVar) :
    lookupVar (dictSet t name v) name = some v := by
  induction t with
  | nil => simp [dictSet, lookupVar]
  | cons e t ih =>
    obtain ⟨k, w⟩ := e
    by_cases h : k == name
    · simp [dictSet, lookupVar, h]
    · simp only [dictSet, lookupVar, h, if_false, Bool.false_eq_true]
      exact ih

theorem dictSet_keys_of_mem (t : VarTable) (name : String) (v : ArduinoVar)
    (h : t.any (fun e => e.1 == name) = true) :
    (dictSet t name v).map Prod.fst = t.map Prod.fst := by
  induction t with
  | nil => simp at h
  | cons e t ih =>
    obtain ⟨k, w⟩ := e
    by_cases hk : k == name
    · simp [dictSet, hk]
    · have h2 : t.any (fun e => e.1 == name) = true := by
        simp only [List.any_cons, hk, Bool.false_or] at h
        exact h
      simp [dictSet, hk, ih h2]

theorem dictSet_mem (t : VarTable) (name : String) (v : ArduinoVar) :
    ∀ e ∈ dictSet t name v, e = (name, v) ∨ e ∈ t := by
  induction t with
  | nil =>
    intro e he
    simp [dictSet] at he
    exact Or.inl he
  | cons a t ih =>
    obtain ⟨k, w⟩ := a
    intro e he
    by_cases hk : k == name
    · have hkn : k = name := by simpa using hk
      simp only [dictSet, hk, if_true] at he
      rcases List.mem_cons.1 he with h | h
      · exact Or.inl (by rw [h, hkn])
      · exact Or.inr (List.mem_cons_of_mem _ h)
    · simp only [dictSet, hk, Bool.false_eq_true, if_false] at he
      rcases List.mem_cons.1 he with h | h
      · exact Or.inr (by rw [h]; exact List.mem_cons_self _ _)
      · rcases ih e h with h2 | h2
        · exact Or.inl h2
        · exact Or.inr (List.mem_cons_of_mem _ h2)

theorem dictSet_wellFormed (t : VarTable) (name : String) (v : ArduinoVar)
    (hwf : wellFormed t) (hpos : 0 < v.number)
    (hfresh : ∀ e ∈ t, e.2.number ≠ v.number) :
    wellFormed (dictSet t name v) := by
  induction t with
  | nil =>
    refine ⟨by simp [dictSet], by simp [dictSet], ?_⟩
    intro e he
    simp [dictSet] at he
    rw [he]
    exact hpos
  | cons a t ih =>
    obtain ⟨k, w⟩ := a
    obtain ⟨hkeys, hnums, hposall⟩ := hwf
    simp only [List.map_cons, List.nodup_cons] at hkeys hnums
    by_cases hk : k == name
    · refine ⟨?_, ?_, ?_⟩
      · simp only [dictSet, hk, if_true, List.map_cons, List.nodup_cons]
        exact hkeys
      · simp only [dictSet, hk, if_true, List.map_cons, List.nodup_cons]
        refine ⟨?_, hnums.2⟩
        intro hmem
        obtain ⟨e, he, hne⟩ := List.mem_map.1 hmem
        exact hfresh e (List.mem_cons_of_mem _ he) hne
      · intro e he
        simp only [dictSet, hk, if_true] at he
        rcases List.mem_cons.1 he with h | h
        · rw [h]; exact hpos
        · exact hposall e (List.mem_cons_of_mem _ h)
    · have hwf2 : wellFormed t := ⟨hkeys.2, hnums.2, fun e he => hposall e (List.mem_cons_of_mem _ he)⟩
      have hfresh2 : ∀ e ∈ t, e.2.number ≠ v.number :=
        fun e he => hfresh e (List.mem_cons_of_mem _ he)
      have ih2 := ih hwf2 hfresh2
      refine ⟨?_, ?_, ?_⟩
      · simp only [dictSet, hk, Bool.false_eq_true, if_false, List.map_cons, List.nodup_cons]
        refine ⟨?_, ih2.1⟩
        intro hmem
        obtain ⟨e, he, hne⟩ := List.mem_map.1 hmem
        rcases dictSet_mem t name v e he with h2 | h2
        · rw [h2] at hne
          have hk2 : ¬ k = name := by simpa using hk
          exact hk2 hne.symm
        · exact hkeys.1 (List.mem_map.2 ⟨e, h2, hne⟩)
      · simp only [dictSet, hk, Bool.false_eq_true, if_false, List.map_cons, List.nodup_cons]
        refine ⟨?_, ih2.2.1⟩
        intro hmem
        obtain ⟨e, he, hne⟩ := List.mem_map.1 hmem
        rcases dictSet_mem t name v e he with h2 | h2
        · rw [h2] at hne
          exact hfresh ⟨k, w⟩ (List.mem_cons_self _ _) hne.symm
        · exact hnums.1 (List.mem_map.2 ⟨e, h2, hne⟩)
      · intro e he
        simp only [dictSet, hk, Bool.false_eq_true, if_false] at he
        rcases List.mem_cons.1 he with h | h
        · rw [h]; exact hposall ⟨k, w⟩ (List.mem_cons_self _ _)
        · rcases dictSet_mem t name v e h with h2 | h2
          · rw [h2]; exact hpos
          · exact hposall e (List.mem_cons_of_mem _ h2)

end Arduino

theorem beq_comm_str (a b : String) : (a == b) = (b == a) := by
  by_cases h : a = b
  · simp [h]
  · simp [h, Ne.symm h]

namespace SerialDevices

theorem compare_param_spec {α : Type} [BEq α] (truthy : α → Bool)
    (pf kf : Option α) (hwf : ∀ p, pf = some p → truthy p = true) :
    compare_device_parameter truthy pf kf = fieldMatchesSpec kf pf := by
  cases kf with
  | none =>
    cases pf with
    | none => rfl
    | some p => simp [compare_device_parameter, fieldMatchesSpec, hwf p rfl]
  | some k =>
    cases pf with
    | none => rfl
    | some p => simp [compare_device_parameter, fieldMatchesSpec, hwf p rfl]

theorem if_false_chain (a b c d e : Bool) :
    (if a = false then false
     else if b = false then false
     else if c = false then false
     else if d = false then false
     else e) = (a && b && c && d && e) := by
  cases a <;> cases b <;> cases c <;> cases d <;> cases e <;> rfl

end SerialDevices

namespace Modbus

theorem lookupMember_mem (members : List (String × Nat)) (mode : String) (v : Nat)
    (h : lookupMember members mode = some v) : ∃ k, (k, v) ∈ members := by
  induction members with
  | nil => cases h
  | cons a t ih =>
    obtain ⟨k, w⟩ := a
    by_cases hk : (k == mode) = true
    · simp only [lookupMember, hk, if_true, Option.some.injEq] at h
      exact ⟨k, by rw [← h]; exact List.mem_cons_self _ _⟩
    · simp only [lookupMember, hk, Bool.false_eq_true, if_false] at h
      obtain ⟨k2, hk2⟩ := ih h
      exact ⟨k2, List.mem_cons_of_mem _ hk2⟩

theorem hton_byte_pair (c d : Nat) (hc : c < 256) (hd : d < 256) :
    hton [c, d] 1 1 = Except.ok (c * 256 + d) := by
  unfold hton packLE
  have hc2 : c % 256 = c := Nat.mod_eq_of_lt hc
  have hd2 : d % 256 = d := Nat.mod_eq_of_lt hd
  simp [structSizes, leBytes, beValue, leValue, hc, hd, hc2, hd2]
  ring

end Modbus

/-! Claim theorems. -/

/-- C1: during a schedule run the worker writes each row's status only
forward (`equilibrating`, then possibly `running`, `done` — never a
regression), the final devices are left safe, and when an external
`stop()` clears the running flag during row `i`'s equilibration wait
(and no earlier wait was interrupted) the worker aborts the loop leaving
row `i` in status `equilibrating`, never writing `running` or `done` for
it nor touching any later row, while the safe-state pass still runs on
all linked devices. -/
theorem schedule_status_forward_and_stop_aborts
    (s0 : Schedule.ScheduleState) (stopE stopR : Nat → Bool)
    (hev : s0.events = []) :
    (∀ k, Schedule.allowedTrace
        (Schedule.rowEvents (Schedule.updateConditions stopE stopR s0).events k)) ∧
    (∀ p ∈ (Schedule.updateConditions stopE stopR s0).devParams, Schedule.safeDev p) ∧
    (∀ i, i < s0.rows.length → stopE i = true →
      (∀ j, j < i → stopE j = false ∧ stopR j = false) →
      ((Schedule.updateConditions stopE stopR s0).rows[i]?).map Schedule.Row.status
          = some Schedule.RowStatus.equilibrating ∧
      Schedule.rowEvents (Schedule.updateConditions stopE stopR s0).events i
          = [Schedule.RowStatus.equilibrating] ∧
      (∀ j, i < j →
        Schedule.rowEvents (Schedule.updateConditions stopE stopR s0).events j = [])) := by
  have hev0 : ({ s0 with running := true } : Schedule.ScheduleState).events = [] := hev
  refine ⟨?_, ?_, ?_⟩
  · intro k
    unfold Schedule.updateConditions
    rw [Schedule.safestate_events]
    apply Schedule.runLoop_allowed
    · intro j
      rw [hev0]
      exact Or.inl rfl
    · intro j _
      rw [hev0]
      rfl
  · intro p hp
    unfold Schedule.updateConditions at hp
    rw [Schedule.safestate_devParams] at hp
    obtain ⟨q, _, rfl⟩ := List.mem_map.1 hp
    exact Schedule.safestateDev_safe q
  · intro i hi hstop hnostop
    have h := Schedule.runLoop_stop_mid_equil stopE stopR i s0.rows.length 0
      { s0 with running := true } (Nat.zero_le i) (by omega) hi rfl hstop
      (fun j _ hj => hnostop j hj)
      (by intro j _; rw [hev0]; rfl)
    refine ⟨?_, ?_, ?_⟩
    · unfold Schedule.updateConditions
      rw [Schedule.safestate_rows]
      exact h.1
    · unfold Schedule.updateConditions
      rw [Schedule.safestate_events]
      exact h.2.1
    · intro j hj
      unfold Schedule.updateConditions
      rw [Schedule.safestate_events]
      exact (h.2.2 j hj).1

/-- Witness for C1: on a two-row schedule with a `stop()` arriving during
row 1's equilibration wait, row 1 ends in status `equilibrating` and its
only status write is `equilibrating`. -/
theorem schedule_status_forward_and_stop_aborts_witness :
    (exSched.events = [] ∧ 1 < exSched.rows.length ∧ exStopE 1 = true ∧
      (∀ j, j < 1 → exStopE j = false ∧ exStopR j = false)) ∧
    (((Schedule.updateConditions exStopE exStopR exSched).rows[1]?).map Schedule.Row.status
        = some Schedule.RowStatus.equilibrating ∧
      Schedule.rowEvents (Schedule.updateConditions exStopE exStopR exSched).events 1
        = [Schedule.RowStatus.equilibrating]) := by
  refine ⟨⟨rfl, by decide, rfl, by decide⟩, ?_⟩
  have h := (schedule_status_forward_and_stop_aborts exSched exStopE exStopR rfl).2.2
    1 (by decide) rfl (by decide)
  exact ⟨h.1, h.2.1⟩

/-- C2 counterexample: the safe-state pass skips a parameter whose device
connection is not open, but — contrary to the claim — emits NO warning:
the log is unchanged (`Schedule.safestate` contains no logger call). -/
theorem safestate_closed_device_no_log :
    (Schedule.safestate exClosedSched).log = [] ∧
    (Schedule.safestate exClosedSched).devParams = exClosedSched.devParams ∧
    exDevClosed.isOpen = false := by
  refine ⟨rfl, by decide, rfl⟩

/-- C2 (amended): whenever the worker loop exits, the safe-state pass
runs over every device-linked parameter — every open device with an
enable capability ends commanded off, every open device without one ends
with setpoint 0, and a device whose connection is not open is skipped
silently (left untouched and not treated as fatal; the safe-state pass
itself logs nothing). -/
theorem worker_exit_safestate_effects
    (s0 : Schedule.ScheduleState) (stopE stopR : Nat → Bool) :
    (∀ p ∈ (Schedule.updateConditions stopE stopR s0).devParams, Schedule.safeDev p) ∧
    (∀ (j : Nat) (p : Schedule.DevParam),
      s0.devParams[j]? = some p → p.dev.isOpen = false →
      (Schedule.updateConditions stopE stopR s0).devParams[j]? = some p) ∧
    (∀ s : Schedule.ScheduleState, (Schedule.safestate s).log = s.log) := by
  refine ⟨?_, ?_, fun s => rfl⟩
  · intro p hp
    unfold Schedule.updateConditions at hp
    rw [Schedule.safestate_devParams] at hp
    obtain ⟨q, _, rfl⟩ := List.mem_map.1 hp
    exact Schedule.safestateDev_safe q
  · intro j p hj hcl
    unfold Schedule.updateConditions
    rw [Schedule.safestate_devParams, List.getElem?_map,
      Schedule.runLoop_closed stopE stopR s0.rows.length 0
        { s0 with running := true } j p (by exact hj) hcl]
    simp [Schedule.safestateDev_closed p hcl]

/-- Witness for C2: the closed device of `exSched` is untouched by a
complete run. -/
theorem worker_exit_safestate_effects_witness :
    (exSched.devParams[2]? = some ⟨"Temperature TC", false, exDevClosed⟩ ∧
      exDevClosed.isOpen = false) ∧
    (Schedule.updateConditions exStopE exStopR exSched).devParams[2]?
      = some ⟨"Temperature TC", false, exDevClosed⟩ := by
  refine ⟨⟨by decide, rfl⟩, ?_⟩
  exact (worker_exit_safestate_effects exSched exStopE exStopR).2.1 2 _ (by decide) rfl

/-- C3: the safe-state pass is idempotent on device state — running it
twice equals running it once — and on a parameter whose device is
already safe (disabled / zeroed as applicable) a pass is a no-op, so a
second pass causes no additional transitions. -/
theorem safestate_idempotent :
    (∀ s : Schedule.ScheduleState,
      Schedule.safestate (Schedule.safestate s) = Schedule.safestate s) ∧
    (∀ p : Schedule.DevParam, Schedule.safeDev p → Schedule.safestateDev p = p) := by
  constructor
  · intro s
    rcases s with ⟨dp, rows, run, th, ev, log⟩
    simp only [Schedule.safestate, List.map_map]
    congr 1
    apply List.map_congr_left
    intro p _
    exact Schedule.safestateDev_idem p
  · exact fun p h => Schedule.safestateDev_of_safe p h

/-- Witness for C3: an already-safe device is left exactly as it is by
another safe-state pass. -/
theorem safestate_idempotent_witness :
    Schedule.safeDev ⟨"Pressure BPR", false,
      { isOpen := true, hasEnable := false, isOn := false, sp := 0 }⟩ ∧
    Schedule.safestateDev ⟨"Pressure BPR", false,
        { isOpen := true, hasEnable := false, isOn := false, sp := 0 }⟩
      = ⟨"Pressure BPR", false,
        { isOpen := true, hasEnable := false, isOn := false, sp := 0 }⟩ :=
  ⟨by decide, safestate_idempotent.2 _ (by decide)⟩

/-- C10: calling `stop()` when `_thread_run` is `None` (never started, or
a previous `stop()` completed and reset it) raises `AttributeError`
before the safe-state pass can run — the error state carries the devices
untouched; after a matching `start()` the same `stop()` succeeds. -/
theorem stop_without_thread_raises (s : Schedule.ScheduleState)
    (h : s.threadAlive = false) :
    Schedule.stop s = Except.error { s with running := false } ∧
    (Schedule.stop (Schedule.start s)).isOk = true := by
  constructor
  · simp [Schedule.stop, h]
  · simp [Schedule.stop, Schedule.start, Except.isOk, Except.toBool]

/-- Witness for C10: the freshly created schedule (no `start()` yet)
makes `stop()` raise. -/
theorem stop_without_thread_raises_witness :
    exSched.threadAlive = false ∧
    Schedule.stop exSched = Except.error { exSched with running := false } :=
  ⟨rfl, (stop_without_thread_raises exSched rfl).1⟩

/-- C4 counterexample: a registered `int` variable whose device responds
with a payload that does not decode is NOT given the type-appropriate
zero value — `read_variable` returns the raw response string (the
`ValueError` handler falls through to `return return_value` after
`return_value` was overwritten with the raw string). -/
theorem read_variable_decode_failure_raw_string :
    (Arduino.read_variable exVars "X" "" (some "abc\n")).2 = PyVal.vstr "abc\n" ∧
    ¬ (Arduino.read_variable exVars "X" "" (some "abc\n")).2 = PyVal.vint 0 := by
  exact ⟨by decide, by decide⟩

/-- C4 (amended): `read_variable` returns the plain integer 0 for an
unknown name, and the type-appropriate zero value (0 / 0.0 / the empty
string) for a write-only variable, a read timeout (empty response) or a
serial failure; but a payload that fails to decode to the declared
int/float type is returned as the raw undecoded response string (after
logging), not as the zero value. -/
theorem read_variable_failure_values :
    (∀ (vars : Arduino.VarTable) (name pending : String) (line : Option String),
      Arduino.lookupVar vars name = none →
      (Arduino.read_variable vars name pending line).2 = PyVal.vint 0) ∧
    (∀ (vars : Arduino.VarTable) (name pending : String) (line : Option String)
        (v : Arduino.ArduinoVar),
      Arduino.lookupVar vars name = some v →
      (v.access = "w" ∨ v.access = "W") →
      (Arduino.read_variable vars name pending line).2 = Arduino.zero_value v.type) ∧
    (∀ (vars : Arduino.VarTable) (name pending : String) (v : Arduino.ArduinoVar),
      Arduino.lookupVar vars name = some v →
      ¬ v.access = "w" → ¬ v.access = "W" →
      (Arduino.read_variable vars name pending (some "")).2 = Arduino.zero_value v.type) ∧
    (∀ (vars : Arduino.VarTable) (name pending : String) (v : Arduino.ArduinoVar),
      Arduino.lookupVar vars name = some v →
      ¬ v.access = "w" → ¬ v.access = "W" →
      (Arduino.read_variable vars name pending none).2 = Arduino.zero_value v.type) ∧
    (∀ (vars : Arduino.VarTable) (name pending rv : String) (v : Arduino.ArduinoVar),
      Arduino.lookupVar vars name = some v →
      ¬ v.access = "w" → ¬ v.access = "W" → ¬ rv = "" →
      ((v.type = "int" ∧ Arduino.pyParseInt rv = none) ∨
        (v.type = "float" ∧ Arduino.pyParseFloat rv = none)) →
      (Arduino.read_variable vars name pending (some rv)).2 = PyVal.vstr rv) := by
  refine ⟨?_, ?_, ?_, ?_, ?_⟩
  · intro vars name pending line h
    simp [Arduino.read_variable, h]
  · intro vars name pending line v h hacc
    rcases hacc with h2 | h2 <;>
      simp [Arduino.read_variable, h, h2]
  · intro vars name pending v h h1 h2
    simp [Arduino.read_variable, h, h1, h2]
  · intro vars name pending v h h1 h2
    simp [Arduino.read_variable, h, h1, h2]
  · intro vars name pending rv v h h1 h2 hrv hdec
    rcases hdec with ⟨hty, hparse⟩ | ⟨hty, hparse⟩ <;>
      simp [Arduino.read_variable, h, h1, h2, hrv, hty, hparse]

/-- Witness for C4: the `X` variable of `exVars` (type `int`, read-only
access `r`) yields 0 on a timeout and the raw string on an undecodable
payload. -/
theorem read_variable_failure_values_witness :
    (Arduino.lookupVar exVars "X" = some ⟨5, "r", "int", "an integer variable"⟩ ∧
      ¬ ("r" : String) = "w" ∧ ¬ ("r" : String) = "W" ∧ ¬ ("zz" : String) = "" ∧
      Arduino.pyParseInt "zz" = none) ∧
    (Arduino.read_variable exVars "X" "" (some "")).2 = Arduino.zero_value "int" ∧
    (Arduino.read_variable exVars "X" "" (some "zz")).2 = PyVal.vstr "zz" := by
  refine ⟨⟨by decide, by decide, by decide, by decide, by decide⟩, ?_, ?_⟩
  · exact read_variable_failure_values.2.2.1 exVars "X" ""
      ⟨5, "r", "int", "an integer variable"⟩ (by decide) (by decide) (by decide)
  · exact read_variable_failure_values.2.2.2.2 exVars "X" "" "zz"
      ⟨5, "r", "int", "an integer variable"⟩ (by decide) (by decide) (by decide)
      (by decide) (Or.inl ⟨rfl, by decide⟩)

/-- C5: `add_variable` with a non-positive number, an already-used
number, an invalid access string or an invalid type string leaves the
variable table completely unchanged (so the original registration of a
duplicated id stays intact and no partial entry appears). -/
theorem add_variable_invalid_noop (t : Arduino.VarTable) (name : String)
    (num : Int) (access ty d : String)
    (hbad : num ≤ 0 ∨ (∃ e ∈ t, e.2.number = num) ∨
      Arduino.normalizeAccess access = none ∨
      Arduino.validTypes.contains ty = false) :
    (Arduino.add_variable t name num access ty d).1 = t := by
  unfold Arduino.add_variable
  rcases hbad with h | h | h | h
  · simp [h]
  · by_cases h0 : num ≤ 0
    · simp [h0]
    · have hany : t.any (fun e => e.2.number == num) = true := by
        rcases h with ⟨e, he, hn⟩
        exact List.any_eq_true.2 ⟨e, he, by simp [hn]⟩
      simp [h0, hany]
  · by_cases h0 : num ≤ 0
    · simp [h0]
    · by_cases h1 : t.any (fun e => e.2.number == num) = true
      · simp [h0, h1]
      · simp [h0, h1, h]
  · by_cases h0 : num ≤ 0
    · simp [h0]
    · by_cases h1 : t.any (fun e => e.2.number == num) = true
      · simp [h0, h1]
      · cases h2 : Arduino.normalizeAccess access with
        | none => simp [h0, h1, h2]
        | some a =>
          have h3 : ¬ ty ∈ Arduino.validTypes := by simpa using h
          simp [h0, h1, h2, h3]

/-- Witness for C5: re-registering id 1 (already used by `ID`) under a
new name is rejected and leaves the table unchanged. -/
theorem add_variable_invalid_noop_witness :
    (∃ e ∈ exVars, e.2.number = 1) ∧
    (Arduino.add_variable exVars "Y" 1 "r" "int" "dup").1 = exVars :=
  ⟨⟨("ID", ⟨1, "rw", "str", "Device identifier"⟩), by decide, rfl⟩,
    add_variable_invalid_noop exVars "Y" 1 "r" "int" "dup"
      (Or.inr (Or.inl ⟨("ID", ⟨1, "rw", "str", "Device identifier"⟩), by decide, rfl⟩))⟩

/-- C6 counterexample: re-registering the already-registered name `ID`
with its OWN current id 1 does not replace the registration — the
duplicate-number check fires first and the call is a no-op, keeping the
old description. -/
theorem add_variable_same_name_same_id_not_replaced :
    (Arduino.add_variable Arduino.initTable "ID" 1 "rw" "str" "replacement description").1
      = Arduino.initTable ∧
    Arduino.lookupVar Arduino.initTable "ID"
      = some ⟨1, "rw", "str", "Device identifier"⟩ ∧
    ¬ ("Device identifier" : String) = "replacement description" := by
  exact ⟨by decide, by decide, by decide⟩

/-- C6 (amended): re-registering an existing name succeeds only with a
fresh id — positive and different from EVERY registered id, the
variable's own current id included — and a valid access/type; it then
replaces the entry in place (same key set, so no duplicate id slot) and
the new registration is the one looked up afterwards.  Re-registering
with any id already in use (its own included) is rejected and leaves the
registration unchanged (see the counterexample).  Moreover every
`add_variable` call preserves the invariant that registered ids are
unique and positive. -/
theorem add_variable_reregistration :
    (∀ (t : Arduino.VarTable) (name : String) (num : Int) (access ty d a : String),
      t.any (fun e => e.1 == name) = true →
      0 < num →
      (∀ e ∈ t, e.2.number ≠ num) →
      Arduino.normalizeAccess access = some a →
      Arduino.validTypes.contains ty = true →
      (Arduino.add_variable t name num access ty d).1
          = Arduino.dictSet t name ⟨num, a, ty, d⟩ ∧
      (Arduino.add_variable t name num access ty d).1.map Prod.fst = t.map Prod.fst ∧
      Arduino.lookupVar (Arduino.add_variable t name num access ty d).1 name
          = some ⟨num, a, ty, d⟩) ∧
    (∀ (t : Arduino.VarTable) (name : String) (num : Int) (access ty d : String),
      Arduino.wellFormed t →
      Arduino.wellFormed (Arduino.add_variable t name num access ty d).1) := by
  constructor
  · intro t name num access ty d a hname hnum hfresh hacc hty
    have h0 : ¬ num ≤ 0 := by omega
    have hany : t.any (fun e => e.2.number == num) = false := by
      apply List.any_eq_false.2
      intro e he
      simp [hfresh e he]
    have heq : (Arduino.add_variable t name num access ty d).1
        = Arduino.dictSet t name ⟨num, a, ty, d⟩ := by
      have hty2 : ty ∈ Arduino.validTypes := by simpa using hty
      simp [Arduino.add_variable, h0, hany, hacc, hty2]
    refine ⟨heq, ?_, ?_⟩
    · rw [heq]
      exact Arduino.dictSet_keys_of_mem t name _ hname
    · rw [heq]
      exact Arduino.dictSet_lookup t name _
  · intro t name num access ty d hwf
    unfold Arduino.add_variable
    by_cases h0 : num ≤ 0
    · simpa [h0] using hwf
    · by_cases h1 : t.any (fun e => e.2.number == num) = true
      · simpa [h0, h1] using hwf
      · cases h2 : Arduino.normalizeAccess access with
        | none => simpa [h0, h1, h2] using hwf
        | some a =>
          by_cases h3 : Arduino.validTypes.contains ty = true
          · have hfresh : ∀ e ∈ t, e.2.number ≠ num := by
              intro e he hn
              exact h1 (List.any_eq_true.2 ⟨e, he, by simp [hn]⟩)
            have hwf2 := Arduino.dictSet_wellFormed t name ⟨num, a, ty, d⟩ hwf
              (show (0 : Int) < num by omega) hfresh
            have h3' : ty ∈ Arduino.validTypes := by simpa using h3
            simp [h0, h1, h2, h3']
            exact hwf2
          · have h3' : ¬ ty ∈ Arduino.validTypes := by simpa using h3
            simpa [h0, h1, h2, h3'] using hwf

/-- Witness for C6: `ID` re-registered with fresh id 2 is replaced in
place, keeping the key set, and the invariant holds afterwards. -/
theorem add_variable_reregistration_witness :
    (exVars.any (fun e => e.1 == "ID") = true ∧ (0 : Int) < 2 ∧
      (∀ e ∈ exVars, e.2.number ≠ 2) ∧
      Arduino.normalizeAccess "RW" = some "rw" ∧
      Arduino.validTypes.contains "str" = true ∧ Arduino.wellFormed exVars) ∧
    ((Arduino.add_variable exVars "ID" 2 "RW" "str" "renamed").1
        = Arduino.dictSet exVars "ID" ⟨2, "rw", "str", "renamed"⟩ ∧
      Arduino.lookupVar (Arduino.add_variable exVars "ID" 2 "RW" "str" "renamed").1 "ID"
        = some ⟨2, "rw", "str", "renamed"⟩ ∧
      Arduino.wellFormed (Arduino.add_variable exVars "ID" 2 "RW" "str" "renamed").1) := by
  refine ⟨⟨by decide, by decide, by decide, by decide, by decide, by decide⟩, ?_, ?_, ?_⟩
  · exact (add_variable_reregistration.1 exVars "ID" 2 "RW" "str" "renamed" "rw"
      (by decide) (by decide) (by decide) (by decide) (by decide)).1
  · exact (add_variable_reregistration.1 exVars "ID" 2 "RW" "str" "renamed" "rw"
      (by decide) (by decide) (by decide) (by decide) (by decide)).2.2
  · exact add_variable_reregistration.2 exVars "ID" 2 "RW" "str" "renamed" (by decide)

/-- C7: for a port whose present descriptor fields are truthy (pyserial
reports missing fields as `None`), `KnownDevices._compare` holds iff
every identity field present (serial number, vid, pid, manufacturer)
equals the port's corresponding field and every identity field absent is
absent on the port too, with the live-read custom id compared when no
serial number is recorded but a custom id is; in particular an identity
with a serial number recorded matches neither a port with a different
serial number nor a port lacking one. -/
theorem compare_matches_spec (port : SerialDevices.PortData)
    (kd : SerialDevices.KnownDevice) (live : Option String)
    (hwf : SerialDevices.wfPort port) :
    (SerialDevices.compareKnown port kd live
      = SerialDevices.matchesSpec port kd live) ∧
    (∀ sn, kd.serial_number = some sn →
      (port.serial_number = none →
        SerialDevices.compareKnown port kd live = false) ∧
      (∀ s2, port.serial_number = some s2 → ¬ s2 = sn →
        SerialDevices.compareKnown port kd live = false)) := by
  obtain ⟨h1, h2, h3, h4⟩ := hwf
  constructor
  · have e1 : SerialDevices.compare_device_parameter SerialDevices.strTruthy
        port.serial_number kd.serial_number
        = SerialDevices.fieldMatchesSpec kd.serial_number port.serial_number := by
      refine SerialDevices.compare_param_spec _ _ _ ?_
      intro p hp
      have hne : ¬ p = "" := by
        intro he
        exact h1 (by rw [hp, he])
      simp [SerialDevices.strTruthy, hne]
    have e2 : SerialDevices.compare_device_parameter SerialDevices.natTruthy
        port.vid kd.vid
        = SerialDevices.fieldMatchesSpec kd.vid port.vid := by
      refine SerialDevices.compare_param_spec _ _ _ ?_
      intro p hp
      have hne : ¬ p = 0 := by
        intro he
        exact h2 (by rw [hp, he])
      simp [SerialDevices.natTruthy, hne]
    have e3 : SerialDevices.compare_device_parameter SerialDevices.natTruthy
        port.pid kd.pid
        = SerialDevices.fieldMatchesSpec kd.pid port.pid := by
      refine SerialDevices.compare_param_spec _ _ _ ?_
      intro p hp
      have hne : ¬ p = 0 := by
        intro he
        exact h3 (by rw [hp, he])
      simp [SerialDevices.natTruthy, hne]
    have e4 : SerialDevices.compare_device_parameter SerialDevices.strTruthy
        port.manufacturer kd.manufacturer
        = SerialDevices.fieldMatchesSpec kd.manufacturer port.manufacturer := by
      refine SerialDevices.compare_param_spec _ _ _ ?_
      intro p hp
      have hne : ¬ p = "" := by
        intro he
        exact h4 (by rw [hp, he])
      simp [SerialDevices.strTruthy, hne]
    unfold SerialDevices.compareKnown
    rw [SerialDevices.if_false_chain, e1, e2, e3, e4]
    unfold SerialDevices.matchesSpec
    cases hcid : kd.custom_id with
    | none => rfl
    | some cid =>
      cases live with
      | none => rfl
      | some l => simp [beq_comm_str cid l]
  · intro sn hsn
    constructor
    · intro hp
      unfold SerialDevices.compareKnown
      simp [SerialDevices.compare_device_parameter, hsn, hp]
    · intro s2 hp hne
      unfold SerialDevices.compareKnown
      have : SerialDevices.compare_device_parameter SerialDevices.strTruthy
          port.serial_number kd.serial_number = false := by
        rw [hsn, hp]
        simp [SerialDevices.compare_device_parameter, hne]
      simp [this]

/-- Witness for C7: a fully specified port and identity with equal
fields match, and the code predicate agrees with the specification
predicate on them. -/
theorem compare_matches_spec_witness :
    SerialDevices.wfPort exPort ∧
    SerialDevices.compareKnown exPort exKnown none
      = SerialDevices.matchesSpec exPort exKnown none ∧
    SerialDevices.compareKnown exPort exKnown none = true := by
  refine ⟨by decide, ?_, by decide⟩
  exact (compare_matches_spec exPort exKnown none (by decide)).1

/-- C8: evaluating the embedded `_read_register` int branch shows the
code bug — a single-word int register decodes to raw / si_adj as the
claim states, but ANY multi-word (`data_length = 2`) int register read
raises: `_ntoh(words, 2, 1)` packs at least 4 bytes and then unpacks a
2-byte `<H` format, a `struct.error`; the claimed big-endian assembly
and scaling never happen (and the following `register['data']` /
`val.registers[0]` lines would raise `KeyError` / `AttributeError`
anyway). -/
theorem read_register_int_multiword_raises :
    Modbus.read_register_int exIntReg1 [123] = Except.ok ((123 : Rat) / 10) ∧
    Modbus.read_register_int exIntReg2 [1, 2]
      = Except.error "struct.error: unpack requires a buffer of outsize*2 bytes" ∧
    Modbus.ntoh [1, 2] 2 1
      = Except.error "struct.error: unpack requires a buffer of outsize*2 bytes" ∧
    ¬ Modbus.read_register_int exIntReg2 [1, 2]
      = Except.ok (((1 : Rat) * 65536 + 2) / 10) := by
  refine ⟨rfl, rfl, rfl, ?_⟩
  intro h
  cases h

/-- C9: `write_command` raises exactly when the mode argument is invalid
(a non-empty mode for an action command, or a mode outside the register's
enum when one is required); for a valid mode it packs the command-code /
data-byte pair big-endian (`code * 256 + data`) and performs the write
without raising, and a device-side error response is logged in full
detail but never raised. -/
theorem write_command_mode_validation
    (reg : Modbus.CommandRegister) (command mode : String)
    (res : Modbus.WriteResponse)
    (hcode : reg.command_code < 256)
    (hdata : Modbus.dataInRange reg.data)
    (hshape : Modbus.wellShaped reg) :
    ((Modbus.write_command reg command mode res).isOk = true ↔
      (match reg.data with
        | Modbus.CommandData.byte _ => mode = ""
        | Modbus.CommandData.menum members =>
          ∃ v, Modbus.lookupMember members mode = some v)) ∧
    (∀ b, reg.data = Modbus.CommandData.byte b → mode = "" →
      Modbus.write_command reg command mode res
        = Except.ok (reg.command_code * 256 + b,
            Modbus.errorLogs command mode res)) ∧
    (∀ members v, reg.data = Modbus.CommandData.menum members →
      Modbus.lookupMember members mode = some v →
      Modbus.write_command reg command mode res
        = Except.ok (reg.command_code * 256 + v,
            Modbus.errorLogs command mode res)) ∧
    (res.isError = true → ¬ Modbus.errorLogs command mode res = []) ∧
    (res.isError = false → Modbus.errorLogs command mode res = []) := by
  have hlog1 : res.isError = true → ¬ Modbus.errorLogs command mode res = [] := by
    intro h
    simp [Modbus.errorLogs, h]
  have hlog2 : res.isError = false → Modbus.errorLogs command mode res = [] := by
    intro h
    simp [Modbus.errorLogs, h]
  cases hd2 : reg.data with
  | byte b =>
    have haction : Modbus.strContains reg.register_type "action" = true := by
      unfold Modbus.wellShaped at hshape
      rw [hd2] at hshape
      exact hshape
    have hb : b < 256 := by
      unfold Modbus.dataInRange at hdata
      rw [hd2] at hdata
      exact hdata
    refine ⟨?_, ?_, ?_, hlog1, hlog2⟩
    · by_cases hm : mode = ""
      · simp [Modbus.write_command, haction, hm, hd2,
          Modbus.hton_byte_pair _ _ hcode hb, Except.isOk, Except.toBool]
      · have hm2 : (mode == "") = false := by simp [hm]
        simp [Modbus.write_command, haction, hm2, hd2, Except.isOk, Except.toBool, hm]
    · intro b2 hb2 hm
      injection hb2 with hbb
      subst hbb
      simp [Modbus.write_command, haction, hm, hd2,
        Modbus.hton_byte_pair _ _ hcode hb]
    · intro members v hmem _
      cases hmem
  | menum members =>
    have haction : Modbus.strContains reg.register_type "action" = false := by
      unfold Modbus.wellShaped at hshape
      rw [hd2] at hshape
      exact hshape
    refine ⟨?_, ?_, ?_, hlog1, hlog2⟩
    · cases hl : Modbus.lookupMember members mode with
      | none =>
        simp [Modbus.write_command, haction, hd2, hl, Except.isOk, Except.toBool]
      | some v =>
        obtain ⟨k, hkmem⟩ := Modbus.lookupMember_mem members mode v hl
        have hv : v < 256 := by
          unfold Modbus.dataInRange at hdata
          rw [hd2] at hdata
          exact hdata (k, v) hkmem
        simp [Modbus.write_command, haction, hd2, hl,
          Modbus.hton_byte_pair _ _ hcode hv, Except.isOk, Except.toBool]
    · intro b hb2 _
      cases hb2
    · intro members2 v hmem hl
      injection hmem with hmm
      subst hmm
      obtain ⟨k, hkmem⟩ := Modbus.lookupMember_mem members mode v hl
      have hv : v < 256 := by
        unfold Modbus.dataInRange at hdata
        rw [hd2] at hdata
        exact hdata (k, v) hkmem
      simp [Modbus.write_command, haction, hd2, hl,
        Modbus.hton_byte_pair _ _ hcode hv]

/-- Witness for C9: the `run_stop` register of the E5_C table written
with mode `STOP` packs `0x01 * 256 + 0x01`, succeeds even when the
device response reports an error, and that error is logged. -/
theorem write_command_mode_validation_witness :
    (exRunStop.command_code < 256 ∧ Modbus.dataInRange exRunStop.data ∧
      Modbus.wellShaped exRunStop ∧
      Modbus.lookupMember [("RUN", 0x00), ("STOP", 0x01)] "STOP" = some 0x01 ∧
      exErrResponse.isError = true) ∧
    Modbus.write_command exRunStop "run_stop" "STOP" exErrResponse
      = Except.ok (exRunStop.command_code * 256 + 0x01,
          Modbus.errorLogs "run_stop" "STOP" exErrResponse) ∧
    ¬ Modbus.errorLogs "run_stop" "STOP" exErrResponse = [] := by
  refine ⟨⟨by decide, by decide, by decide, by decide, rfl⟩, ?_, ?_⟩
  · exact (write_command_mode_validation exRunStop "run_stop" "STOP" exErrResponse
      (by decide) (by decide) (by decide)).2.2.1 [("RUN", 0x00), ("STOP", 0x01)] 0x01
      rfl (by decide)
  · exact (write_command_mode_validation exRunStop "run_stop" "STOP" exErrResponse
      (by decide) (by decide) (by decide)).2.2.2.1 rfl
